import Mathlib

/-!
Shallow embedding of the NeuroScope frontend WebSocket client
(`WSClient` in the repository's WebSocket client module).

Modelling conventions:
* JS values reaching the client's inspection points are projected to the
  fields the code actually reads: a response payload is `PayloadData`
  (`status`, `message`, `reason`), and a payload that is absent
  (`undefined`, i.e. the JSON frame had no `data` key) is `Option.none`.
* `uuidv4()` is modelled as a fresh injective token generator `mkRid`
  driven by the state's `nextId` counter; the spec itself adopts
  "globally unique generation" as the policy, and only freshness and
  distinctness of the tokens matter to the client.
* Promises are modelled by outcome records: every operation (a `connect`
  call or a `sendMessage` call) owns a promise identified by a `Nat`;
  `settle` records the first resolution/rejection and ignores later ones,
  exactly as a JS promise does.
* Timers (`setTimeout` / `setInterval` handles) are modelled as live
  `Timer` records carrying their delay; firing and clearing remove them.
* All transport callbacks and timer callbacks run sequentially on one
  event loop, as the source does; the step machine `step` below delivers
  one callback at a time.
-/

namespace NeuroScope

/-- Payload fields the client inspects, projected from the dynamic
`data` value of a frame. `none` at the `Option PayloadData` level models
an absent (`undefined`) payload. -/
structure PayloadData where
  status : Option String := none
  message : Option String := none
  reason : Option String := none
  deriving Repr, DecidableEq

/-- The wire envelope `WSMessage` of the source: `messageType`,
`commandType`, optional `data`, optional `requestId`, `timestamp`. -/
structure WSMessage where
  messageType : String
  commandType : String
  data : Option PayloadData := none
  requestId : Option String := none
  timestamp : Nat := 0
  deriving Repr, DecidableEq

/-- An inbound raw frame: `JSON.parse` either throws (malformed) or
yields an envelope. -/
inductive Frame
  | malformed (raw : String)
  | parsed (m : WSMessage)
  deriving Repr, DecidableEq

/-- The events of `WSClientEventType`, with the argument each emit call
passes. Error events carry a description of the emitted error value. -/
inductive WSClientEvent
  | connected
  | disconnected (code : Nat) (reason : String)
  | error (description : String)
  | message (m : WSMessage)
  | train_progress (d : PayloadData)
  | train_completed (d : PayloadData)
  deriving Repr, DecidableEq

/-- Resolution of an operation's promise. -/
inductive Outcome
  | resolved (opId : Nat) (d : Option PayloadData)
  | rejected (opId : Nat) (msg : String)
  deriving Repr, DecidableEq

/-- Kinds of live timers, with their delay in milliseconds. -/
inductive TimerKind
  | pingTick
  | reconnect (delay : Nat)
  | requestTimeout (opId : Nat) (requestId : String) (commandType : String) (delay : Nat)
  deriving Repr, DecidableEq

/-- A live (armed, not yet fired or cleared) timer handle. -/
structure Timer where
  id : Nat
  kind : TimerKind
  deriving Repr, DecidableEq

/-- Transport-side lifecycle phase of one WebSocket object. A socket can
fire `open` only from `connecting`, fires `error` at most once, never
fires `open` after `error`, and fires `close` at most once, last. -/
inductive SocketPhase
  | connecting
  | opened
  | errored
  | closing
  | closed
  deriving Repr, DecidableEq

/-- `readyState` of a socket as the client observes it. -/
inductive ReadyState
  | CONNECTING
  | OPEN
  | CLOSING
  | CLOSED
  deriving Repr, DecidableEq

def phaseToReady : SocketPhase → ReadyState
  | .connecting => .CONNECTING
  | .opened => .OPEN
  | .errored => .CLOSING
  | .closing => .CLOSING
  | .closed => .CLOSED

/-- One WebSocket object ever constructed by the client, with the
connect-promise id its handlers captured. -/
structure SocketRec where
  id : Nat
  pid : Nat
  phase : SocketPhase
  deriving Repr, DecidableEq

/-- An entry of the `pendingRequests` map: the key and the operation
promise whose `resolve`/`reject` continuations are stored. -/
structure PendingReq where
  requestId : String
  opId : Nat
  commandType : String
  deriving Repr, DecidableEq

/-- The whole client state: the fields of the `WSClient` class plus the
observable traces (emitted events, settled promises, sent frames) and
the environment bookkeeping (sockets ever created, live timers). -/
structure ClientState where
  sockets : List SocketRec := []
  currentSocket : Option Nat := none
  isConnecting : Bool := false
  connectionPromise : Option Nat := none
  reconnectAttempts : Nat := 0
  maxReconnectAttempts : Nat := 5
  reconnectTimeout : Nat := 1000
  pingInterval : Option Nat := none
  timers : List Timer := []
  pendingRequests : List PendingReq := []
  outcomes : List Outcome := []
  events : List WSClientEvent := []
  sentFrames : List WSMessage := []
  settled : List Nat := []
  nextId : Nat := 0
  deriving Repr, DecidableEq

def initialState : ClientState := {}

/-- The fresh correlation token for counter value `k`; `uuidv4()`
abstracted to an injective, never-empty token. -/
def mkRid (k : Nat) : String := String.mk (List.replicate (k + 1) 'r')

def emitEvent (s : ClientState) (e : WSClientEvent) : ClientState :=
  { s with events := s.events ++ [e] }

/-- First settlement of a promise wins; later settlements are ignored,
as for a JS promise. -/
def settle (s : ClientState) (pid : Nat) (o : Outcome) : ClientState :=
  if pid ∈ s.settled then s
  else { s with outcomes := s.outcomes ++ [o], settled := s.settled ++ [pid] }

def hasKey (l : List PendingReq) (rid : String) : Bool :=
  l.any (fun q => q.requestId = rid)

def getKey? (l : List PendingReq) (rid : String) : Option PendingReq :=
  l.find? (fun q => q.requestId = rid)

/-- `Map.delete` on the pending-request map. -/
def deleteKey (l : List PendingReq) (rid : String) : List PendingReq :=
  l.filter (fun q => q.requestId ≠ rid)

/-- `Map.set`: replaces the value of an existing key in place, appends a
new key. -/
def mapSet (l : List PendingReq) (p : PendingReq) : List PendingReq :=
  if hasKey l p.requestId then
    l.map (fun q => if q.requestId = p.requestId then p else q)
  else l ++ [p]

def findSocket (s : ClientState) (sid : Nat) : Option SocketRec :=
  s.sockets.find? (fun r => r.id = sid)

def setSocketPhase (s : ClientState) (sid : Nat) (ph : SocketPhase) : ClientState :=
  { s with sockets := s.sockets.map (fun r => if r.id = sid then { r with phase := ph } else r) }

/-- `this.socket?.readyState`, `none` when `this.socket` is null. -/
def currentReadyState (s : ClientState) : Option ReadyState :=
  match s.currentSocket with
  | none => none
  | some sid =>
    match findSocket s sid with
    | none => none
    | some r => some (phaseToReady r.phase)

/-- `cleanup()`: clears the ping interval handle if one is tracked. -/
def cleanup (s : ClientState) : ClientState :=
  match s.pingInterval with
  | some t => { s with pingInterval := none, timers := s.timers.filter (fun tm => tm.id ≠ t) }
  | none => s

/-- `setupPing()`: arms a fresh 30000 ms interval and stores its handle.
The source does not clear a previously tracked handle first; it merely
overwrites the field. -/
def setupPing (s : ClientState) : ClientState :=
  { s with pingInterval := some s.nextId,
           timers := s.timers ++ [{ id := s.nextId, kind := TimerKind.pingTick }],
           nextId := s.nextId + 1 }

/-- `attemptReconnect()`: below the cap, increments the attempt counter
and then schedules an anonymous reconnect timer with delay
`reconnectTimeout * 2 ^ (attempts - 1)` computed from the incremented
counter; at or above the cap it returns without scheduling. -/
def attemptReconnect (s : ClientState) : ClientState :=
  if s.reconnectAttempts ≥ s.maxReconnectAttempts then s
  else
    let attempts := s.reconnectAttempts + 1
    let delay := s.reconnectTimeout * 2 ^ (attempts - 1)
    { s with reconnectAttempts := attempts,
             timers := s.timers ++ [{ id := s.nextId, kind := TimerKind.reconnect delay }],
             nextId := s.nextId + 1 }

/-- Result returned to a `connect()` caller. -/
inductive ConnectResult
  | alreadyOpen
  | joined (pid : Nat)
  | started (pid : Nat)
  deriving Repr, DecidableEq

/-- `connect()`: returns at once when the socket is open; returns the
stored in-flight promise while `isConnecting`; otherwise sets
`isConnecting`, creates the connect promise and constructs a new
WebSocket (the constructor-throw catch branch is not modelled). -/
def connect (s : ClientState) : ClientState × ConnectResult :=
  if currentReadyState s = some ReadyState.OPEN then (s, ConnectResult.alreadyOpen)
  else if s.isConnecting then (s, ConnectResult.joined (s.connectionPromise.getD 0))
  else
    let pid := s.nextId
    let sid := s.nextId + 1
    ({ s with isConnecting := true,
              connectionPromise := some pid,
              currentSocket := some sid,
              sockets := s.sockets ++ [{ id := sid, pid := pid, phase := SocketPhase.connecting }],
              nextId := s.nextId + 2 }, ConnectResult.started pid)

/-- The `onopen` handler of the socket `sid` whose connect promise is
`pid`: reset the attempt counter, start the ping interval, clear
`isConnecting`, emit `connected`, resolve the connect promise. -/
def onOpen (s : ClientState) (sid pid : Nat) : ClientState :=
  let s := setSocketPhase s sid SocketPhase.opened
  let s := { s with reconnectAttempts := 0 }
  let s := setupPing s
  let s := { s with isConnecting := false }
  let s := emitEvent s WSClientEvent.connected
  settle s pid (Outcome.resolved pid none)

/-- The `onerror` handler: emit `error`; if a connect is in flight,
reject the captured promise and clear `isConnecting`. -/
def onError (s : ClientState) (sid pid : Nat) : ClientState :=
  let s := setSocketPhase s sid SocketPhase.errored
  let s := emitEvent s (WSClientEvent.error "WebSocket error")
  if s.isConnecting then
    let s := settle s pid (Outcome.rejected pid "WebSocket error")
    { s with isConnecting := false }
  else s

/-- The `onclose` handler: cleanup, emit `disconnected`, schedule a
reconnect, then reject the captured connect promise when a connect was
in flight. -/
def onClose (s : ClientState) (sid pid : Nat) (code : Nat) (reason : String) : ClientState :=
  let s := setSocketPhase s sid SocketPhase.closed
  let s := cleanup s
  let s := emitEvent s (WSClientEvent.disconnected code reason)
  let s := attemptReconnect s
  if s.isConnecting then
    let s := settle s pid (Outcome.rejected pid
      ("WebSocket connection closed: " ++ toString code ++ " - " ++ reason))
    { s with isConnecting := false }
  else s

/-- Models `data.message || defaultMsg`: JS `||` falls through on an
absent field and on the falsy empty string. -/
def jsOr (m : Option String) (dflt : String) : String :=
  match m with
  | some v => if v = "" then dflt else v
  | none => dflt

/-- The correlation block of `handleMessage`: guarded by the truthiness
of `message.requestId` (absent or empty string skips), then by map
membership; on a match the entry's continuations are invoked
(`data?.status === 'error'` rejects with `data.message || 'Unknown
error'`, anything else resolves with `data`) and the entry is deleted. -/
def correlate (s : ClientState) (m : WSMessage) : ClientState :=
  match m.requestId with
  | none => s
  | some rid =>
    if rid = "" then s
    else
      match getKey? s.pendingRequests rid with
      | none => s
      | some p =>
        let s :=
          match m.data with
          | some d =>
            if d.status = some "error" then
              settle s p.opId (Outcome.rejected p.opId (jsOr d.message "Unknown error"))
            else settle s p.opId (Outcome.resolved p.opId (some d))
          | none => settle s p.opId (Outcome.resolved p.opId none)
        { s with pendingRequests := deleteKey s.pendingRequests rid }

/-- `handleMessage`: parse failure is caught and emitted as `error`; a
parsed frame is emitted on the generic `message` stream; a `train`
frame's payload status is inspected without an optional guard, so an
absent payload throws there and the catch block emits `error` before
the correlation block is ever reached; otherwise the in-progress /
completed statuses fan out to their events and correlation follows. -/
def handleMessage (s : ClientState) (f : Frame) : ClientState :=
  match f with
  | .malformed _ => emitEvent s (WSClientEvent.error "SyntaxError: malformed frame")
  | .parsed m =>
    let s := emitEvent s (WSClientEvent.message m)
    if m.commandType = "train" then
      match m.data with
      | none => emitEvent s (WSClientEvent.error "TypeError: cannot read status of undefined")
      | some d =>
        let s :=
          if d.status = some "in_progress" then emitEvent s (WSClientEvent.train_progress d)
          else if d.status = some "completed" then emitEvent s (WSClientEvent.train_completed d)
          else s
        correlate s m
    else correlate s m

/-- The body of `sendMessage` once the awaited `connect()` has resolved:
checks the socket is open (rejecting with the NotConnected error
otherwise), generates a fresh `requestId`, registers the pending
request, writes the command envelope to the transport, and arms the
30000 ms request timeout. `Date.now()` is informational and fixed to 0. -/
def sendMessageBody (s : ClientState) (opId : Nat) (commandType : String)
    (data : Option PayloadData) : ClientState :=
  if currentReadyState s = some ReadyState.OPEN then
    let rid := mkRid s.nextId
    let msg : WSMessage :=
      { messageType := "command", commandType := commandType, data := data,
        requestId := some rid, timestamp := 0 }
    { s with
      pendingRequests := mapSet s.pendingRequests
        { requestId := rid, opId := opId, commandType := commandType },
      sentFrames := s.sentFrames ++ [msg],
      timers := s.timers ++
        [{ id := s.nextId + 1, kind := TimerKind.requestTimeout opId rid commandType 30000 }],
      nextId := s.nextId + 2 }
  else settle s opId (Outcome.rejected opId "WebSocket is not connected")

/-- The request-timeout callback: if the `requestId` is still tracked,
delete it and reject the operation naming the command type. -/
def requestTimeoutFire (s : ClientState) (opId : Nat) (rid ct : String) : ClientState :=
  if hasKey s.pendingRequests rid then
    settle { s with pendingRequests := deleteKey s.pendingRequests rid }
      opId (Outcome.rejected opId ("Request timeout for command: " ++ ct))
  else s

/-- `this.socket.close()`. -/
def closeTransport (s : ClientState) : ClientState :=
  match s.currentSocket with
  | some sid => setSocketPhase s sid SocketPhase.closing
  | none => s

/-- `close(reason)`: when open, awaits `sendMessage('close', {reason})`
and only then closes the transport and runs `cleanup()`. The awaited
outcome of the send is supplied by the environment (`sendResult`);
intermediate callbacks during the await are not interleaved here, so
this models the executions in which no other event fires meanwhile.
When the send rejects, the `await` throws out of `close`, skipping both
`this.socket.close()` and `this.cleanup()`. When not open, `cleanup()`
runs directly. -/
def close (s : ClientState) (opId : Nat) (reason : String)
    (sendResult : Except String (Option PayloadData)) : ClientState :=
  if currentReadyState s = some ReadyState.OPEN then
    let s1 := sendMessageBody s opId "close" (some { reason := some reason })
    match sendResult with
    | Except.error _ => s1
    | Except.ok _ => cleanup (closeTransport s1)
  else cleanup s

/-- One deliverable callback on the cooperative event loop: a user
`connect()` call, a transport event of a particular socket, an inbound
frame, or a timer firing. -/
inductive LoopEvent
  | callConnect
  | transportOpen (sid : Nat)
  | transportError (sid : Nat)
  | transportClose (sid : Nat) (code : Nat) (reason : String)
  | inbound (f : Frame)
  | timerFire (tid : Nat)
  deriving Repr, DecidableEq

def isConnectedB (s : ClientState) : Bool :=
  currentReadyState s = some ReadyState.OPEN

/-- Which events the environment can actually deliver: transport events
respect the per-socket lifecycle (`open` only from connecting, no `open`
after `error`, one `close`, last), frames arrive only while some socket
is open, and only armed timers fire. Ping ticks are delivered only while
open, so that the tick's `sendMessage('ping')` runs its body at once. -/
def enabled (s : ClientState) : LoopEvent → Bool
  | .callConnect => true
  | .transportOpen sid =>
    match findSocket s sid with
    | some r => r.phase = SocketPhase.connecting
    | none => false
  | .transportError sid =>
    match findSocket s sid with
    | some r => r.phase = SocketPhase.connecting || r.phase = SocketPhase.opened
    | none => false
  | .transportClose sid _ _ =>
    match findSocket s sid with
    | some r => r.phase ≠ SocketPhase.closed
    | none => false
  | .inbound _ => s.sockets.any (fun r => r.phase = SocketPhase.opened)
  | .timerFire tid =>
    s.timers.any (fun t => t.id = tid &&
      (match t.kind with
       | TimerKind.pingTick => isConnectedB s
       | _ => true))

/-- Runs a fired timer's callback. A `setTimeout` timer is consumed; the
ping `setInterval` stays armed and its callback runs
`this.ping()`, which is `sendMessage('ping')` with a fresh promise. -/
def fireTimer (s : ClientState) (t : Timer) : ClientState :=
  match t.kind with
  | TimerKind.pingTick =>
    sendMessageBody { s with nextId := s.nextId + 1 } s.nextId "ping" (some {})
  | TimerKind.reconnect _ =>
    let s := { s with timers := s.timers.filter (fun tm => tm.id ≠ t.id) }
    (connect s).1
  | TimerKind.requestTimeout opId rid ct _ =>
    let s := { s with timers := s.timers.filter (fun tm => tm.id ≠ t.id) }
    requestTimeoutFire s opId rid ct

/-- One step of the event loop: deliver the callback if it is enabled. -/
def step (s : ClientState) (e : LoopEvent) : ClientState :=
  if enabled s e then
    match e with
    | .callConnect => (connect s).1
    | .transportOpen sid =>
      match findSocket s sid with
      | some r => onOpen s r.id r.pid
      | none => s
    | .transportError sid =>
      match findSocket s sid with
      | some r => onError s r.id r.pid
      | none => s
    | .transportClose sid code reason =>
      match findSocket s sid with
      | some r => onClose s r.id r.pid code reason
      | none => s
    | .inbound f => handleMessage s f
    | .timerFire tid =>
      match s.timers.find? (fun t => t.id = tid) with
      | some t => fireTimer s t
      | none => s
  else s

def run (s : ClientState) (es : List LoopEvent) : ClientState :=
  es.foldl step s

/-- A trace is valid when every delivered event is enabled in the state
it is delivered in. -/
def validRun (s : ClientState) : List LoopEvent → Bool
  | [] => true
  | e :: es => enabled s e && validRun (step s e) es

/-! Helper observables used by the claims. -/

def pendingKeys (s : ClientState) : List String :=
  s.pendingRequests.map (fun p => p.requestId)

/-- Every pending key was generated by the token generator below the
current counter; invariant of all reachable states. -/
def ridsBounded (s : ClientState) : Prop :=
  ∀ p ∈ s.pendingRequests, ∃ k, k < s.nextId ∧ p.requestId = mkRid k

/-- Issue a batch of reply-expecting operations back to back on the
loop; each element carries the operation's promise id and command type. -/
def issueOps (s : ClientState) : List (Nat × String) → ClientState
  | [] => s
  | op :: rest => issueOps (sendMessageBody s op.1 op.2 none) rest

/-- The correlation tokens generated for a batch starting at counter
`n`; each send consumes two counter values (token and timer handle). -/
def newRids (n : Nat) : List (Nat × String) → List String
  | [] => []
  | _ :: rest => mkRid n :: newRids (n + 2) rest

def pingTimerCount (s : ClientState) : Nat :=
  (s.timers.filter (fun t => t.kind = TimerKind.pingTick)).length

def reconTimerCount (s : ClientState) : Nat :=
  (s.timers.filter (fun t =>
    match t.kind with
    | TimerKind.reconnect _ => true
    | _ => false)).length

/-- Delays of the currently scheduled reconnect timers, in schedule
order. -/
def reconnectDelays (s : ClientState) : List Nat :=
  s.timers.filterMap (fun t =>
    match t.kind with
    | TimerKind.reconnect d => some d
    | _ => none)

/-- The state after `k` consecutive transport closures' reconnect
scheduling, starting from `s` with no intervening successful open. -/
def iterReconnect (s : ClientState) : Nat → ClientState
  | 0 => s
  | k + 1 => attemptReconnect (iterReconnect s k)

/-- A fresh client configured with backoff base delay `b`. -/
def baseState (b : Nat) : ClientState := { reconnectTimeout := b }

def hasTimer (s : ClientState) (tid : Nat) : Bool :=
  s.timers.any (fun t => t.id = tid)

/-! Supporting lemmas. -/

theorem mkRid_inj {a b : Nat} (h : mkRid a = mkRid b) : a = b := by
  have hd : List.replicate (a + 1) 'r' = List.replicate (b + 1) 'r' := by
    simpa [mkRid] using congrArg String.data h
  have := congrArg List.length hd
  simpa using this

theorem mkRid_ne_empty (k : Nat) : mkRid k ≠ "" := by
  intro h
  have hd : List.replicate (k + 1) 'r' = ([] : List Char) := by
    simpa [mkRid, String.ext_iff] using h
  simpa using congrArg List.length hd

theorem getKey?_of_hasKey_false {l : List PendingReq} {rid : String}
    (h : hasKey l rid = false) : getKey? l rid = none := by
  rw [getKey?, List.find?_eq_none]
  intro p hp
  intro hc
  have : l.any (fun q => q.requestId = rid) = true :=
    List.any_eq_true.mpr ⟨p, hp, hc⟩
  rw [hasKey] at h
  rw [this] at h
  cases h

theorem hasKey_deleteKey (l : List PendingReq) (rid : String) :
    hasKey (deleteKey l rid) rid = false := by
  rw [hasKey, deleteKey]
  induction l with
  | nil => rfl
  | cons p l ih =>
    by_cases hp : p.requestId = rid
    · simpa [List.filter_cons, hp] using ih
    · simpa [List.filter_cons, hp] using ih

theorem getKey?_deleteKey (l : List PendingReq) (rid : String) :
    getKey? (deleteKey l rid) rid = none :=
  getKey?_of_hasKey_false (hasKey_deleteKey l rid)

theorem mapSet_fresh {l : List PendingReq} {p : PendingReq}
    (h : hasKey l p.requestId = false) : mapSet l p = l ++ [p] := by
  rw [mapSet, h]
  simp

theorem currentReadyState_congr {s₁ s₂ : ClientState}
    (hs : s₁.sockets = s₂.sockets) (hc : s₁.currentSocket = s₂.currentSocket) :
    currentReadyState s₁ = currentReadyState s₂ := by
  unfold currentReadyState findSocket
  rw [hs, hc]

theorem fresh_of_bounded {s : ClientState} (hb : ridsBounded s) :
    hasKey s.pendingRequests (mkRid s.nextId) = false := by
  cases h : hasKey s.pendingRequests (mkRid s.nextId) with
  | false => rfl
  | true =>
    rw [hasKey, List.any_eq_true] at h
    obtain ⟨p, hp, hpe⟩ := h
    obtain ⟨k, hk, hke⟩ := hb p hp
    rw [hke] at hpe
    have := mkRid_inj (by simpa using hpe)
    omega

theorem settle_events (s : ClientState) (pid : Nat) (o : Outcome) :
    (settle s pid o).events = s.events := by
  unfold settle; split <;> rfl

theorem settle_pendingRequests (s : ClientState) (pid : Nat) (o : Outcome) :
    (settle s pid o).pendingRequests = s.pendingRequests := by
  unfold settle; split <;> rfl

theorem settle_timers (s : ClientState) (pid : Nat) (o : Outcome) :
    (settle s pid o).timers = s.timers := by
  unfold settle; split <;> rfl

theorem settle_pingInterval (s : ClientState) (pid : Nat) (o : Outcome) :
    (settle s pid o).pingInterval = s.pingInterval := by
  unfold settle; split <;> rfl

theorem settle_reconnectAttempts (s : ClientState) (pid : Nat) (o : Outcome) :
    (settle s pid o).reconnectAttempts = s.reconnectAttempts := by
  unfold settle; split <;> rfl

theorem correlate_events (s : ClientState) (m : WSMessage) :
    (correlate s m).events = s.events := by
  rw [correlate]
  rcases m.requestId with _ | rid
  · rfl
  · by_cases he : rid = ""
    · simp [he]
    · simp only [if_neg he]
      rcases getKey? s.pendingRequests rid with _ | p
      · rfl
      · rcases m.data with _ | d
        · simp [settle_events]
        · by_cases hs : d.status = some "error" <;> simp [hs, settle_events]

theorem correlate_none {s : ClientState} {m : WSMessage}
    (h : m.requestId = none) : correlate s m = s := by
  rw [correlate, h]

theorem correlate_miss {s : ClientState} {m : WSMessage} {rid : String}
    (h : m.requestId = some rid) (hg : getKey? s.pendingRequests rid = none) :
    correlate s m = s := by
  rw [correlate, h]
  by_cases he : rid = ""
  · simp [he]
  · simp [he, hg]

/-- The resolution an in-flight operation receives from a matched
response payload, per the correlation block. -/
def matchedOutcome (p : PendingReq) (d : Option PayloadData) : Outcome :=
  match d with
  | some pd =>
    if pd.status = some "error" then
      Outcome.rejected p.opId (jsOr pd.message "Unknown error")
    else Outcome.resolved p.opId (some pd)
  | none => Outcome.resolved p.opId none

theorem correlate_match {s : ClientState} {m : WSMessage} {rid : String} {p : PendingReq}
    (hrid : m.requestId = some rid) (hne : rid ≠ "")
    (hget : getKey? s.pendingRequests rid = some p) (hset : p.opId ∉ s.settled) :
    (correlate s m).pendingRequests = deleteKey s.pendingRequests rid ∧
    (correlate s m).outcomes = s.outcomes ++ [matchedOutcome p m.data] := by
  rw [correlate, hrid]
  simp only [if_neg hne, hget]
  rcases m.data with _ | d
  · simp [settle, hset, matchedOutcome]
  · by_cases hs : d.status = some "error" <;> simp [hs, settle, hset, matchedOutcome]

theorem settle_congr_fields {s₁ s₂ : ClientState} (ho : s₁.outcomes = s₂.outcomes)
    (hs : s₁.settled = s₂.settled) (hp : s₁.pendingRequests = s₂.pendingRequests)
    (pid : Nat) (o : Outcome) :
    (settle s₁ pid o).outcomes = (settle s₂ pid o).outcomes ∧
    (settle s₁ pid o).settled = (settle s₂ pid o).settled ∧
    (settle s₁ pid o).pendingRequests = (settle s₂ pid o).pendingRequests := by
  unfold settle
  rw [hs]
  split <;> simp [ho, hs, hp]

theorem correlate_congr_fields (s₁ s₂ : ClientState) (ho : s₁.outcomes = s₂.outcomes)
    (hs : s₁.settled = s₂.settled) (hp : s₁.pendingRequests = s₂.pendingRequests)
    (m : WSMessage) :
    (correlate s₁ m).outcomes = (correlate s₂ m).outcomes ∧
    (correlate s₁ m).pendingRequests = (correlate s₂ m).pendingRequests := by
  rw [correlate, correlate]
  rcases m.requestId with _ | rid
  · exact ⟨ho, hp⟩
  · by_cases he : rid = ""
    · simp [he, ho, hp]
    · simp only [if_neg he, hp]
      rcases hg : getKey? s₂.pendingRequests rid with _ | p
      · exact ⟨ho, hp⟩
      · dsimp only
        rcases m.data with _ | d
        · dsimp only
          obtain ⟨o', hsettled, hpend⟩ := settle_congr_fields ho hs hp p.opId
            (Outcome.resolved p.opId none)
          exact ⟨o', by rw [hpend]⟩
        · dsimp only
          by_cases hst : d.status = some "error"
          · rw [if_pos hst, if_pos hst]
            obtain ⟨o', hsettled, hpend⟩ := settle_congr_fields ho hs hp p.opId
              (Outcome.rejected p.opId (jsOr d.message "Unknown error"))
            exact ⟨o', by rw [hpend]⟩
          · rw [if_neg hst, if_neg hst]
            obtain ⟨o', hsettled, hpend⟩ := settle_congr_fields ho hs hp p.opId
              (Outcome.resolved p.opId (some d))
            exact ⟨o', by rw [hpend]⟩

/-- Correlation-relevant fields of `handleMessage` on a parsed frame
reduce to `correlate` on the incoming state, provided the frame does not
take the thrown-TypeError path (`train` with absent payload). -/
theorem handleMessage_correlate_fields {s : ClientState} {m : WSMessage}
    (hok : m.commandType = "train" → m.data ≠ none) :
    (handleMessage s (Frame.parsed m)).outcomes = (correlate s m).outcomes ∧
    (handleMessage s (Frame.parsed m)).pendingRequests = (correlate s m).pendingRequests := by
  rw [handleMessage]
  by_cases ht : m.commandType = "train"
  · rcases hd : m.data with _ | d
    · exact absurd hd (hok ht)
    · rw [if_pos ht]
      dsimp only
      by_cases h1 : d.status = some "in_progress"
      · rw [if_pos h1]
        exact correlate_congr_fields
          (emitEvent (emitEvent s (WSClientEvent.message m)) (WSClientEvent.train_progress d))
          s rfl rfl rfl m
      · by_cases h2 : d.status = some "completed"
        · rw [if_neg h1, if_pos h2]
          exact correlate_congr_fields
            (emitEvent (emitEvent s (WSClientEvent.message m)) (WSClientEvent.train_completed d))
            s rfl rfl rfl m
        · rw [if_neg h1, if_neg h2]
          exact correlate_congr_fields
            (emitEvent s (WSClientEvent.message m)) s rfl rfl rfl m
  · rw [if_neg ht]
    exact correlate_congr_fields
      (emitEvent s (WSClientEvent.message m)) s rfl rfl rfl m

theorem sendMessageBody_open {s : ClientState} {opId : Nat} {ct : String}
    {d : Option PayloadData} (h : currentReadyState s = some ReadyState.OPEN) :
    sendMessageBody s opId ct d =
      { s with
        pendingRequests := mapSet s.pendingRequests
          { requestId := mkRid s.nextId, opId := opId, commandType := ct },
        sentFrames := s.sentFrames ++
          [{ messageType := "command", commandType := ct, data := d,
             requestId := some (mkRid s.nextId), timestamp := 0 }],
        timers := s.timers ++
          [{ id := s.nextId + 1, kind := TimerKind.requestTimeout opId (mkRid s.nextId) ct 30000 }],
        nextId := s.nextId + 2 } := by
  rw [sendMessageBody, if_pos h]

theorem sendMessageBody_readyState (s : ClientState) (opId : Nat) (ct : String)
    (d : Option PayloadData) :
    currentReadyState (sendMessageBody s opId ct d) = currentReadyState s := by
  rw [sendMessageBody]
  split
  · rfl
  · apply currentReadyState_congr
    · unfold settle; split <;> rfl
    · unfold settle; split <;> rfl

theorem newRids_length : ∀ (ops : List (Nat × String)) (n : Nat),
    (newRids n ops).length = ops.length := by
  intro ops
  induction ops with
  | nil => intro n; rfl
  | cons op rest ih => intro n; simp [newRids, ih]

theorem newRids_mem : ∀ (ops : List (Nat × String)) (n : Nat) (r : String),
    r ∈ newRids n ops → ∃ k, n ≤ k ∧ r = mkRid k := by
  intro ops
  induction ops with
  | nil => intro n r h; cases h
  | cons op rest ih =>
    intro n r h
    rw [newRids] at h
    rcases List.mem_cons.mp h with h | h
    · exact ⟨n, le_rfl, h⟩
    · obtain ⟨k, hk, hke⟩ := ih (n + 2) r h
      exact ⟨k, by omega, hke⟩

theorem newRids_nodup : ∀ (ops : List (Nat × String)) (n : Nat),
    (newRids n ops).Nodup := by
  intro ops
  induction ops with
  | nil => intro n; exact List.nodup_nil
  | cons op rest ih =>
    intro n
    rw [newRids]
    refine List.nodup_cons.mpr ⟨?_, ih (n + 2)⟩
    intro hmem
    obtain ⟨k, hk, hke⟩ := newRids_mem rest (n + 2) (mkRid n) hmem
    have := mkRid_inj hke
    omega

theorem issueOps_spec : ∀ (ops : List (Nat × String)) (s : ClientState),
    currentReadyState s = some ReadyState.OPEN → ridsBounded s →
    pendingKeys (issueOps s ops) = pendingKeys s ++ newRids s.nextId ops ∧
    ridsBounded (issueOps s ops) := by
  intro ops
  induction ops with
  | nil => intro s _ hb; exact ⟨by simp [issueOps, newRids], hb⟩
  | cons op rest ih =>
    intro s hopen hb
    have hfresh : hasKey s.pendingRequests (mkRid s.nextId) = false := fresh_of_bounded hb
    set s' := sendMessageBody s op.1 op.2 none with hs'
    have hsend := @sendMessageBody_open s op.1 op.2 none hopen
    have hpend : s'.pendingRequests =
        s.pendingRequests ++ [{ requestId := mkRid s.nextId, opId := op.1, commandType := op.2 }] := by
      rw [hs', hsend]
      exact mapSet_fresh hfresh
    have hnext : s'.nextId = s.nextId + 2 := by rw [hs', hsend]
    have hopen' : currentReadyState s' = some ReadyState.OPEN := by
      rw [hs', sendMessageBody_readyState]; exact hopen
    have hb' : ridsBounded s' := by
      intro p hp
      rw [hpend] at hp
      rcases List.mem_append.mp hp with hp | hp
      · obtain ⟨k, hk, hke⟩ := hb p hp
        exact ⟨k, by omega, hke⟩
      · rcases List.mem_singleton.mp hp with rfl
        exact ⟨s.nextId, by omega, rfl⟩
    obtain ⟨hkeys, hbfin⟩ := ih s' hopen' hb'
    refine ⟨?_, hbfin⟩
    rw [issueOps, ← hs', hkeys, hnext, newRids]
    rw [pendingKeys, hpend]
    simp [pendingKeys]

theorem pendingKeys_bounded {s : ClientState} (hb : ridsBounded s) :
    ∀ r ∈ pendingKeys s, ∃ k, k < s.nextId ∧ r = mkRid k := by
  intro r hr
  rw [pendingKeys, List.mem_map] at hr
  obtain ⟨p, hp, rfl⟩ := hr
  exact hb p hp

theorem reconnectDelays_attempt {s : ClientState}
    (h : s.reconnectAttempts < s.maxReconnectAttempts) :
    reconnectDelays (attemptReconnect s) =
      reconnectDelays s ++ [s.reconnectTimeout * 2 ^ s.reconnectAttempts] := by
  rw [attemptReconnect, if_neg (by omega)]
  rw [reconnectDelays, reconnectDelays]
  simp [List.filterMap_append]

theorem iterReconnect_spec (b : Nat) : ∀ k, k ≤ 5 →
    (iterReconnect (baseState b) k).reconnectAttempts = k ∧
    (iterReconnect (baseState b) k).maxReconnectAttempts = 5 ∧
    (iterReconnect (baseState b) k).reconnectTimeout = b ∧
    reconnectDelays (iterReconnect (baseState b) k) =
      (List.range k).map (fun i => b * 2 ^ i) := by
  intro k
  induction k with
  | zero => intro _; exact ⟨rfl, rfl, rfl, by simp [iterReconnect, baseState, reconnectDelays]⟩
  | succ k ih =>
    intro hk
    obtain ⟨ha, hm, ht, hd⟩ := ih (by omega)
    have hlt : (iterReconnect (baseState b) k).reconnectAttempts <
        (iterReconnect (baseState b) k).maxReconnectAttempts := by omega
    refine ⟨?_, ?_, ?_, ?_⟩
    · rw [iterReconnect, attemptReconnect, if_neg (by omega)]
      simp [ha]
    · rw [iterReconnect, attemptReconnect, if_neg (by omega)]
      simp [hm]
    · rw [iterReconnect, attemptReconnect, if_neg (by omega)]
      simp [ht]
    · rw [iterReconnect, reconnectDelays_attempt hlt, hd, ha, ht]
      rw [List.range_succ]
      simp

theorem cleanup_pingInterval (s : ClientState) : (cleanup s).pingInterval = none := by
  rw [cleanup]
  cases h : s.pingInterval
  · exact h
  · rfl

theorem closeTransport_pingInterval (s : ClientState) :
    (closeTransport s).pingInterval = s.pingInterval := by
  rw [closeTransport]
  cases s.currentSocket <;> rfl

/-! Claim theorems. -/

/-- C8: a malformed inbound frame is caught inside the message handler,
emitted as a generic `error` event and dropped; the pending-request
registry, outcomes and timers are untouched, so the client neither
crashes nor loses in-flight requests. -/
theorem claim_C8 : ∀ (s : ClientState) (raw : String),
    (handleMessage s (Frame.malformed raw)).pendingRequests = s.pendingRequests ∧
    (handleMessage s (Frame.malformed raw)).outcomes = s.outcomes ∧
    (handleMessage s (Frame.malformed raw)).timers = s.timers ∧
    (handleMessage s (Frame.malformed raw)).events =
      s.events ++ [WSClientEvent.error "SyntaxError: malformed frame"] :=
  fun _ _ => ⟨rfl, rfl, rfl, rfl⟩

/-- C4: `connect()` is idempotent and de-duplicated. While open it
returns success immediately with the state (hence the transport list)
unchanged; while a connect is in flight it returns the stored in-flight
promise, again leaving the state unchanged; and from an idle state two
back-to-back calls construct exactly one new transport, the second call
joining the first call's promise. -/
theorem claim_C4 : ∀ (s : ClientState) (pid : Nat),
    (currentReadyState s = some ReadyState.OPEN →
      connect s = (s, ConnectResult.alreadyOpen)) ∧
    (currentReadyState s ≠ some ReadyState.OPEN → s.isConnecting = true →
      s.connectionPromise = some pid → connect s = (s, ConnectResult.joined pid)) ∧
    (currentReadyState s ≠ some ReadyState.OPEN → s.isConnecting = false →
      (∀ r ∈ s.sockets, r.id < s.nextId) →
      (connect s).2 = ConnectResult.started s.nextId ∧
      (connect s).1.sockets.length = s.sockets.length + 1 ∧
      connect (connect s).1 = ((connect s).1, ConnectResult.joined s.nextId)) := by
  intro s pid
  refine ⟨?_, ?_, ?_⟩
  · intro h
    rw [connect, if_pos h]
  · intro h1 h2 h3
    rw [connect, if_neg h1, if_pos h2, h3]
    rfl
  · intro h1 h2 hb
    have h2' : ¬ (s.isConnecting = true) := by rw [h2]; exact Bool.false_ne_true
    have hs1 : (connect s).1 = { s with isConnecting := true, connectionPromise := some s.nextId, currentSocket := some (s.nextId + 1), sockets := s.sockets ++ [{ id := s.nextId + 1, pid := s.nextId, phase := SocketPhase.connecting }], nextId := s.nextId + 2 } := by
      rw [connect, if_neg h1, if_neg h2']
    have hc2 : (connect s).2 = ConnectResult.started s.nextId := by
      rw [connect, if_neg h1, if_neg h2']
    refine ⟨hc2, by rw [hs1]; simp, ?_⟩
    have hnone : (s.sockets.find? fun r => r.id = s.nextId + 1) = none := by
      rw [List.find?_eq_none]
      intro r hr
      have := hb r hr
      simp only [decide_eq_true_eq]
      omega
    have hready : currentReadyState (connect s).1 = some ReadyState.CONNECTING := by
      rw [hs1, currentReadyState]
      dsimp only
      rw [findSocket]
      dsimp only
      rw [List.find?_append, hnone]
      simp [phaseToReady]
    have hic : (connect s).1.isConnecting = true := by rw [hs1]
    have hcp : (connect s).1.connectionPromise = some s.nextId := by rw [hs1]
    rw [connect, if_neg (by rw [hready]; intro hcon; cases hcon), if_pos hic, hcp]
    rfl

/-- C5: the reconnect-attempt counter is incremented before the delay is
computed, so the Nth consecutive closure schedules a delay of
`base * 2 ^ (N - 1)`; after five consecutive failures a sixth closure
schedules nothing; and a successful open (`onopen`) resets the counter
to zero. -/
theorem claim_C5 : ∀ (b N sid pid : Nat), 1 ≤ N → N ≤ 5 →
    reconnectDelays (iterReconnect (baseState b) N) =
      reconnectDelays (iterReconnect (baseState b) (N - 1)) ++ [b * 2 ^ (N - 1)] ∧
    (iterReconnect (baseState b) N).reconnectAttempts = N ∧
    attemptReconnect (iterReconnect (baseState b) 5) = iterReconnect (baseState b) 5 ∧
    (onOpen (iterReconnect (baseState b) N) sid pid).reconnectAttempts = 0 := by
  intro b N sid pid h1 h5
  obtain ⟨M, rfl⟩ : ∃ M, N = M + 1 := ⟨N - 1, by omega⟩
  obtain ⟨haN, hmN, htN, hdN⟩ := iterReconnect_spec b (M + 1) h5
  obtain ⟨haP, hmP, htP, hdP⟩ := iterReconnect_spec b M (by omega)
  obtain ⟨ha5, hm5, ht5, hd5⟩ := iterReconnect_spec b 5 le_rfl
  refine ⟨?_, haN, ?_, ?_⟩
  · rw [hdN]
    simp only [Nat.add_sub_cancel]
    rw [hdP, List.range_succ]
    simp
  · rw [attemptReconnect, if_pos (by rw [ha5, hm5])]
  · rw [onOpen]
    rw [settle_reconnectAttempts]
    rfl

/-- C7: the code of `close(reason)` sends a correlated `close` command
while open and, when the awaited send succeeds, closes the transport and
stops the ping prober; but when the awaited send fails, the `await`
throws out of `close` before `cleanup()` runs, so the ping prober is
left running — contradicting the claim that local resources are released
in every case. When not open, `cleanup()` does run. -/
theorem claim_C7 : ∀ (s : ClientState) (opId : Nat) (reason e : String) (t : Nat),
    currentReadyState s = some ReadyState.OPEN →
    s.pingInterval = some t → hasTimer s t = true →
    ((close s opId reason (Except.error e)).pingInterval = some t ∧
     hasTimer (close s opId reason (Except.error e)) t = true ∧
     (∃ f ∈ (close s opId reason (Except.error e)).sentFrames,
        f.commandType = "close" ∧ f.requestId ≠ none) ∧
     (∀ r, (close s opId reason (Except.ok r)).pingInterval = none) ∧
     (∀ (s2 : ClientState) (o2 : Nat) (r2 : String)
        (sr : Except String (Option PayloadData)),
        currentReadyState s2 ≠ some ReadyState.OPEN →
        (close s2 o2 r2 sr).pingInterval = none)) := by
  intro s opId reason e t hopen hping hlive
  have hbody := @sendMessageBody_open s opId "close" (some { reason := some reason }) hopen
  refine ⟨?_, ?_, ?_, ?_, ?_⟩
  · rw [close, if_pos hopen, hbody]
    exact hping
  · rw [close, if_pos hopen, hbody]
    rw [hasTimer] at hlive ⊢
    dsimp only
    rw [List.any_append, hlive]
    rfl
  · rw [close, if_pos hopen, hbody]
    refine ⟨{ messageType := "command", commandType := "close", data := some { reason := some reason }, requestId := some (mkRid s.nextId), timestamp := 0 }, ?_, rfl, by simp⟩
    dsimp only
    exact List.mem_append_right _ (List.mem_singleton.mpr rfl)
  · intro r
    rw [close, if_pos hopen]
    dsimp only
    rw [cleanup_pingInterval]
  · intro s2 o2 r2 sr h2
    rw [close, if_neg h2]
    rw [cleanup_pingInterval]

theorem claim_C4_witness :
    (currentReadyState initialState ≠ some ReadyState.OPEN) ∧
    initialState.isConnecting = false ∧
    ((connect initialState).2 = ConnectResult.started 0 ∧
     (connect initialState).1.sockets.length = 1 ∧
     connect (connect initialState).1 =
       ((connect initialState).1, ConnectResult.joined 0)) := by
  refine ⟨by decide, rfl, ?_⟩
  exact (claim_C4 initialState 0).2.2 (by decide) rfl (by intro r hr; cases hr)

theorem claim_C5_witness :
    (1 ≤ 3 ∧ 3 ≤ 5) ∧
    (reconnectDelays (iterReconnect (baseState 1000) 3) =
       reconnectDelays (iterReconnect (baseState 1000) 2) ++ [1000 * 2 ^ 2] ∧
     (iterReconnect (baseState 1000) 3).reconnectAttempts = 3 ∧
     attemptReconnect (iterReconnect (baseState 1000) 5) = iterReconnect (baseState 1000) 5 ∧
     (onOpen (iterReconnect (baseState 1000) 3) 0 0).reconnectAttempts = 0) :=
  ⟨⟨by omega, by omega⟩, claim_C5 1000 3 0 0 (by omega) (by omega)⟩

/-- A connected client with a live ping prober, used to evaluate
`close` at a concrete input. -/
def closeDemoState : ClientState :=
  { sockets := [{ id := 0, pid := 0, phase := SocketPhase.opened }],
    currentSocket := some 0, pingInterval := some 1,
    timers := [{ id := 1, kind := TimerKind.pingTick }], nextId := 2 }

theorem claim_C7_witness :
    (currentReadyState closeDemoState = some ReadyState.OPEN ∧
     closeDemoState.pingInterval = some 1 ∧ hasTimer closeDemoState 1 = true) ∧
    (close closeDemoState 9 "user_terminated" (Except.error "timeout")).pingInterval = some 1 ∧
    hasTimer (close closeDemoState 9 "user_terminated" (Except.error "timeout")) 1 = true ∧
    (close closeDemoState 9 "user_terminated" (Except.ok none)).pingInterval = none := by
  have h := claim_C7 closeDemoState 9 "user_terminated" "timeout" 1
    (by decide) rfl (by decide)
  exact ⟨⟨by decide, rfl, by decide⟩, h.1, h.2.1, h.2.2.2.1 none⟩

/-- C1: each reply-expecting send generates a fresh `requestId`, so a
batch of N concurrent operations produces N distinct ids, each adding
exactly one Pending Request; a response carrying a tracked `requestId`
settles exactly that operation and deletes the entry, and an identical
second response settles nothing further (first-match-wins). Train
responses with an absent payload never reach correlation and are the
subject of C10. -/
theorem claim_C1 :
    (∀ (s : ClientState) (ops : List (Nat × String)),
       currentReadyState s = some ReadyState.OPEN → ridsBounded s →
       (newRids s.nextId ops).length = ops.length ∧
       (newRids s.nextId ops).Nodup ∧
       pendingKeys (issueOps s ops) = pendingKeys s ++ newRids s.nextId ops ∧
       ((pendingKeys s).Nodup → (pendingKeys (issueOps s ops)).Nodup)) ∧
    (∀ (s : ClientState) (m : WSMessage) (rid : String) (p : PendingReq),
       m.requestId = some rid → rid ≠ "" →
       getKey? s.pendingRequests rid = some p →
       (m.commandType = "train" → m.data ≠ none) →
       p.opId ∉ s.settled →
       (handleMessage s (Frame.parsed m)).outcomes =
         s.outcomes ++ [matchedOutcome p m.data] ∧
       (handleMessage s (Frame.parsed m)).pendingRequests =
         deleteKey s.pendingRequests rid ∧
       (handleMessage (handleMessage s (Frame.parsed m)) (Frame.parsed m)).outcomes =
         s.outcomes ++ [matchedOutcome p m.data] ∧
       (handleMessage (handleMessage s (Frame.parsed m)) (Frame.parsed m)).pendingRequests =
         deleteKey s.pendingRequests rid) := by
  constructor
  · intro s ops hopen hb
    obtain ⟨hkeys, hbfin⟩ := issueOps_spec ops s hopen hb
    refine ⟨newRids_length ops s.nextId, newRids_nodup ops s.nextId, hkeys, ?_⟩
    intro hnd
    rw [hkeys]
    refine List.Nodup.append hnd (newRids_nodup ops s.nextId) ?_
    intro a ha hna
    obtain ⟨k, hk, rfl⟩ := pendingKeys_bounded hb a ha
    obtain ⟨k', hk', he⟩ := newRids_mem ops s.nextId _ hna
    have := mkRid_inj he
    omega
  · intro s m rid p hrid hne hget hok hset
    obtain ⟨ho1, hp1⟩ := handleMessage_correlate_fields (s := s) hok
    obtain ⟨cp1, co1⟩ := correlate_match hrid hne hget hset
    have hfo : (handleMessage s (Frame.parsed m)).outcomes =
        s.outcomes ++ [matchedOutcome p m.data] := by rw [ho1, co1]
    have hfp : (handleMessage s (Frame.parsed m)).pendingRequests =
        deleteKey s.pendingRequests rid := by rw [hp1, cp1]
    obtain ⟨ho2, hp2⟩ := handleMessage_correlate_fields
      (s := handleMessage s (Frame.parsed m)) hok
    have hmiss : getKey? (handleMessage s (Frame.parsed m)).pendingRequests rid = none := by
      rw [hfp]
      exact getKey?_deleteKey _ _
    have hcm := correlate_miss hrid hmiss
    exact ⟨hfo, hfp, by rw [ho2, hcm, hfo], by rw [hp2, hcm, hfp]⟩

/-- An open client with no in-flight requests, the base state for
concrete batch-issue scenarios. -/
def openClient : ClientState :=
  { sockets := [{ id := 0, pid := 0, phase := SocketPhase.opened }],
    currentSocket := some 0, nextId := 1 }

/-- Three reply-expecting operations issued back to back. -/
def demoOps : List (Nat × String) := [(10, "init"), (11, "train"), (12, "query")]

/-- A response frame matching the first of the three demo operations. -/
def demoResp : WSMessage :=
  { messageType := "response", commandType := "init",
    data := some { status := some "success" }, requestId := some (mkRid 1) }

theorem claim_C1_witness :
    (currentReadyState openClient = some ReadyState.OPEN) ∧
    pendingKeys (issueOps openClient demoOps) =
      pendingKeys openClient ++ newRids openClient.nextId demoOps ∧
    (pendingKeys (issueOps openClient demoOps)).Nodup ∧
    (handleMessage (issueOps openClient demoOps) (Frame.parsed demoResp)).pendingRequests =
      deleteKey (issueOps openClient demoOps).pendingRequests (mkRid 1) := by
  have hb : ridsBounded openClient := by intro p hp; cases hp
  have h1 := claim_C1.1 openClient demoOps (by decide) hb
  have h2 := claim_C1.2 (issueOps openClient demoOps) demoResp (mkRid 1)
    { requestId := mkRid 1, opId := 10, commandType := "init" }
    rfl (by decide) (by decide) (by decide) (by decide)
  exact ⟨by decide, h1.2.2.1, h1.2.2.2 (by decide), h2.2.1⟩

/-- C2: every reply-expecting send arms a 30000 ms timeout naming its
command; when that timer fires with the `requestId` still tracked, the
Pending Request is removed and the operation is rejected with a Timeout
error naming the `commandType`; a response whose `requestId` is no
longer tracked settles nothing, leaves the registry unchanged, and (for
a non-`train` frame) produces only the generic `message` event. -/
theorem claim_C2 :
    (∀ (s : ClientState) (opId : Nat) (ct : String) (d : Option PayloadData),
       currentReadyState s = some ReadyState.OPEN →
       (sendMessageBody s opId ct d).timers = s.timers ++
         [{ id := s.nextId + 1,
            kind := TimerKind.requestTimeout opId (mkRid s.nextId) ct 30000 }]) ∧
    (∀ (s : ClientState) (opId : Nat) (rid ct : String),
       hasKey s.pendingRequests rid = true → opId ∉ s.settled →
       (requestTimeoutFire s opId rid ct).pendingRequests =
         deleteKey s.pendingRequests rid ∧
       (requestTimeoutFire s opId rid ct).outcomes = s.outcomes ++
         [Outcome.rejected opId ("Request timeout for command: " ++ ct)]) ∧
    (∀ (s : ClientState) (m : WSMessage) (rid : String),
       m.requestId = some rid → hasKey s.pendingRequests rid = false →
       (handleMessage s (Frame.parsed m)).outcomes = s.outcomes ∧
       (handleMessage s (Frame.parsed m)).pendingRequests = s.pendingRequests ∧
       (m.commandType ≠ "train" →
         (handleMessage s (Frame.parsed m)).events =
           s.events ++ [WSClientEvent.message m])) := by
  refine ⟨?_, ?_, ?_⟩
  · intro s opId ct d h
    rw [sendMessageBody_open h]
  · intro s opId rid ct h hset
    rw [requestTimeoutFire, if_pos h]
    constructor
    · rw [settle_pendingRequests]
    · unfold settle
      rw [if_neg (by exact hset)]
  · intro s m rid hrid hmiss
    have hget : getKey? s.pendingRequests rid = none := getKey?_of_hasKey_false hmiss
    by_cases hthrow : m.commandType = "train" ∧ m.data = none
    · obtain ⟨ht, hd⟩ := hthrow
      rw [handleMessage, if_pos ht, hd]
      exact ⟨rfl, rfl, fun hc => absurd ht hc⟩
    · have hok : m.commandType = "train" → m.data ≠ none := by
        intro ht hd
        exact hthrow ⟨ht, hd⟩
      obtain ⟨ho, hp⟩ := handleMessage_correlate_fields (s := s) hok
      have hcm := correlate_miss hrid hget
      refine ⟨by rw [ho, hcm], by rw [hp, hcm], ?_⟩
      intro ht
      rw [handleMessage, if_neg ht, correlate_events]
      rfl

/-- A client with one in-flight `query` operation, used to fire its
timeout at a concrete input. -/
def timeoutDemo : ClientState :=
  { pendingRequests := [{ requestId := mkRid 0, opId := 4, commandType := "query" }] }

/-- A response arriving after `timeoutDemo`'s request has timed out. -/
def demoLateResp : WSMessage :=
  { messageType := "response", commandType := "query",
    data := some { status := some "success" }, requestId := some (mkRid 0) }

theorem claim_C2_witness :
    (hasKey timeoutDemo.pendingRequests (mkRid 0) = true) ∧
    (requestTimeoutFire timeoutDemo 4 (mkRid 0) "query").pendingRequests =
      deleteKey timeoutDemo.pendingRequests (mkRid 0) ∧
    (requestTimeoutFire timeoutDemo 4 (mkRid 0) "query").outcomes =
      [Outcome.rejected 4 ("Request timeout for command: " ++ "query")] ∧
    (handleMessage (requestTimeoutFire timeoutDemo 4 (mkRid 0) "query")
        (Frame.parsed demoLateResp)).outcomes =
      (requestTimeoutFire timeoutDemo 4 (mkRid 0) "query").outcomes ∧
    (handleMessage (requestTimeoutFire timeoutDemo 4 (mkRid 0) "query")
        (Frame.parsed demoLateResp)).events =
      (requestTimeoutFire timeoutDemo 4 (mkRid 0) "query").events ++
        [WSClientEvent.message demoLateResp] := by
  have ht := claim_C2.2.1 timeoutDemo 4 (mkRid 0) "query" (by decide) (by decide)
  have hl := claim_C2.2.2 (requestTimeoutFire timeoutDemo 4 (mkRid 0) "query")
    demoLateResp (mkRid 0) rfl (by decide)
  exact ⟨by decide, ht.1, ht.2, hl.1, hl.2.2 (by decide)⟩

/-- C6: an inbound `train` response with a present payload fans out by
status — `in_progress` fires exactly one `train_progress` event with the
payload, `completed` fires exactly one `train_completed` event, any
other status fires neither — and this dispatch happens in addition to
the Pending Request resolution of the same frame. -/
theorem claim_C6 : ∀ (s : ClientState) (m : WSMessage) (d : PayloadData),
    m.commandType = "train" → m.data = some d →
    ((d.status = some "in_progress" →
       (handleMessage s (Frame.parsed m)).events =
         s.events ++ [WSClientEvent.message m, WSClientEvent.train_progress d]) ∧
     (d.status = some "completed" →
       (handleMessage s (Frame.parsed m)).events =
         s.events ++ [WSClientEvent.message m, WSClientEvent.train_completed d]) ∧
     (d.status ≠ some "in_progress" → d.status ≠ some "completed" →
       (handleMessage s (Frame.parsed m)).events =
         s.events ++ [WSClientEvent.message m]) ∧
     (∀ (rid : String) (p : PendingReq), m.requestId = some rid → rid ≠ "" →
       getKey? s.pendingRequests rid = some p → p.opId ∉ s.settled →
       (handleMessage s (Frame.parsed m)).pendingRequests =
         deleteKey s.pendingRequests rid ∧
       (handleMessage s (Frame.parsed m)).outcomes =
         s.outcomes ++ [matchedOutcome p (some d)])) := by
  intro s m d ht hd
  have hok : m.commandType = "train" → m.data ≠ none := by
    intro _
    rw [hd]
    exact Option.some_ne_none d
  refine ⟨?_, ?_, ?_, ?_⟩
  · intro h1
    rw [handleMessage, if_pos ht, hd]
    dsimp only
    rw [if_pos h1, correlate_events]
    simp [emitEvent]
  · intro h2
    have h1 : d.status ≠ some "in_progress" := by rw [h2]; decide
    rw [handleMessage, if_pos ht, hd]
    dsimp only
    rw [if_neg h1, if_pos h2, correlate_events]
    simp [emitEvent]
  · intro h1 h2
    rw [handleMessage, if_pos ht, hd]
    dsimp only
    rw [if_neg h1, if_neg h2, correlate_events]
    rfl
  · intro rid p hrid hne hget hset
    obtain ⟨ho, hp⟩ := handleMessage_correlate_fields (s := s) hok
    obtain ⟨cp, co⟩ := correlate_match hrid hne hget hset
    rw [hd] at co
    exact ⟨by rw [hp, cp], by rw [ho, co]⟩

/-- A client with one in-flight `train` operation, used to deliver train
responses at concrete inputs. -/
def trainClient : ClientState :=
  { pendingRequests := [{ requestId := mkRid 2, opId := 6, commandType := "train" }] }

/-- A `train` progress frame correlating with `trainClient`'s request. -/
def trainProgFrame : WSMessage :=
  { messageType := "response", commandType := "train",
    data := some { status := some "in_progress" }, requestId := some (mkRid 2) }

theorem claim_C6_witness :
    (trainProgFrame.commandType = "train" ∧
     trainProgFrame.data = some { status := some "in_progress" }) ∧
    (handleMessage trainClient (Frame.parsed trainProgFrame)).events =
      trainClient.events ++ [WSClientEvent.message trainProgFrame,
        WSClientEvent.train_progress { status := some "in_progress" }] ∧
    (handleMessage trainClient (Frame.parsed trainProgFrame)).pendingRequests =
      deleteKey trainClient.pendingRequests (mkRid 2) := by
  have h := claim_C6 trainClient trainProgFrame { status := some "in_progress" } rfl rfl
  exact ⟨⟨rfl, rfl⟩, h.1 rfl,
    (h.2.2.2 (mkRid 2) { requestId := mkRid 2, opId := 6, commandType := "train" }
      rfl (by decide) (by decide) (by decide)).1⟩

/-- C10: a parsed `train` frame with an absent payload and a matching
tracked `requestId` throws on the status inspection before correlation;
the exception is caught and emitted as an `error` event, the matching
Pending Request is neither settled nor removed, and it is the later
timeout firing that finally deletes it. -/
theorem claim_C10 : ∀ (s : ClientState) (m : WSMessage) (rid : String),
    m.commandType = "train" → m.data = none → m.requestId = some rid →
    hasKey s.pendingRequests rid = true →
    (handleMessage s (Frame.parsed m)).pendingRequests = s.pendingRequests ∧
    (handleMessage s (Frame.parsed m)).outcomes = s.outcomes ∧
    (handleMessage s (Frame.parsed m)).events = s.events ++
      [WSClientEvent.message m,
       WSClientEvent.error "TypeError: cannot read status of undefined"] ∧
    (∀ (opId : Nat) (ct : String),
       (requestTimeoutFire (handleMessage s (Frame.parsed m)) opId rid ct).pendingRequests =
         deleteKey s.pendingRequests rid) := by
  intro s m rid ht hd hrid hkey
  have hM : handleMessage s (Frame.parsed m) =
      emitEvent (emitEvent s (WSClientEvent.message m))
        (WSClientEvent.error "TypeError: cannot read status of undefined") := by
    rw [handleMessage, if_pos ht, hd]
  refine ⟨by rw [hM]; rfl, by rw [hM]; rfl, by rw [hM]; simp [emitEvent], ?_⟩
  intro opId ct
  have hkey2 : hasKey (handleMessage s (Frame.parsed m)).pendingRequests rid = true := by
    rw [hM]
    exact hkey
  rw [requestTimeoutFire, if_pos hkey2, settle_pendingRequests, hM]
  rfl

/-- A `train` frame whose payload is absent but whose `requestId`
matches `trainClient`'s in-flight request. -/
def trainNoDataFrame : WSMessage :=
  { messageType := "response", commandType := "train",
    data := none, requestId := some (mkRid 2) }

theorem claim_C10_witness :
    (trainNoDataFrame.commandType = "train" ∧ trainNoDataFrame.data = none ∧
     trainNoDataFrame.requestId = some (mkRid 2) ∧
     hasKey trainClient.pendingRequests (mkRid 2) = true) ∧
    (handleMessage trainClient (Frame.parsed trainNoDataFrame)).pendingRequests =
      trainClient.pendingRequests ∧
    (handleMessage trainClient (Frame.parsed trainNoDataFrame)).outcomes =
      trainClient.outcomes ∧
    (requestTimeoutFire (handleMessage trainClient (Frame.parsed trainNoDataFrame))
        6 (mkRid 2) "train").pendingRequests =
      deleteKey trainClient.pendingRequests (mkRid 2) := by
  have h := claim_C10 trainClient trainNoDataFrame (mkRid 2) rfl rfl rfl (by decide)
  exact ⟨⟨rfl, rfl, rfl, by decide⟩, h.1, h.2.1, h.2.2.2 6 "train"⟩

/-- A client holding one Pending Request for operation 7. -/
def remoteErrorClient : ClientState :=
  { pendingRequests := [{ requestId := "r", opId := 7, commandType := "init" }] }

/-- An error response whose payload carries a present but empty
`message` field. -/
def emptyMsgFrame : WSMessage :=
  { messageType := "response", commandType := "init",
    data := some { status := some "error", message := some "" },
    requestId := some "r" }

/-- C3 counterexample: the payload's `message` field is present (the
empty string), so the claim as stated requires the operation to fail
with an error carrying that message; the code instead falls through the
falsy `||` and rejects with the generic unknown-error message. -/
theorem claim_C3_counterexample :
    emptyMsgFrame.data = some { status := some "error", message := some "" } ∧
    (handleMessage remoteErrorClient (Frame.parsed emptyMsgFrame)).outcomes ≠
      [Outcome.rejected 7 ""] ∧
    (handleMessage remoteErrorClient (Frame.parsed emptyMsgFrame)).outcomes =
      [Outcome.rejected 7 "Unknown error"] := by
  refine ⟨rfl, by decide, by decide⟩

/-- C3 amended: on a matched response the Pending Request is removed;
a payload whose `status` is `error` rejects the operation with the
payload's message when that message is present and non-empty, and with
the generic unknown-error message when it is absent OR empty (the code
tests the field with a falsy `||`); any other payload, including one
with no status field or no payload at all on a non-`train` frame,
resolves the operation with the payload. -/
theorem claim_C3 : ∀ (s : ClientState) (m : WSMessage) (rid : String) (p : PendingReq),
    m.requestId = some rid → rid ≠ "" →
    getKey? s.pendingRequests rid = some p → p.opId ∉ s.settled →
    ((∀ d, m.data = some d → d.status = some "error" →
       ((d.message = none ∨ d.message = some "" →
           (handleMessage s (Frame.parsed m)).outcomes =
             s.outcomes ++ [Outcome.rejected p.opId "Unknown error"]) ∧
        (∀ msg, d.message = some msg → msg ≠ "" →
           (handleMessage s (Frame.parsed m)).outcomes =
             s.outcomes ++ [Outcome.rejected p.opId msg]))) ∧
     (∀ d, m.data = some d → d.status ≠ some "error" →
       (handleMessage s (Frame.parsed m)).outcomes =
         s.outcomes ++ [Outcome.resolved p.opId (some d)]) ∧
     (m.data = none → m.commandType ≠ "train" →
       (handleMessage s (Frame.parsed m)).outcomes =
         s.outcomes ++ [Outcome.resolved p.opId none]) ∧
     ((m.commandType = "train" → m.data ≠ none) →
       (handleMessage s (Frame.parsed m)).pendingRequests =
         deleteKey s.pendingRequests rid)) := by
  intro s m rid p hrid hne hget hset
  refine ⟨?_, ?_, ?_, ?_⟩
  · intro d hd hst
    have hok : m.commandType = "train" → m.data ≠ none := by
      intro _
      rw [hd]
      exact Option.some_ne_none d
    obtain ⟨ho, _⟩ := handleMessage_correlate_fields (s := s) hok
    obtain ⟨_, co⟩ := correlate_match hrid hne hget hset
    rw [hd] at co
    constructor
    · intro hmsg
      rw [ho, co, matchedOutcome, if_pos hst]
      rcases hmsg with hmsg | hmsg <;> rw [hmsg] <;> rfl
    · intro msg hmsg hmne
      rw [ho, co, matchedOutcome, if_pos hst, hmsg]
      rw [jsOr, if_neg hmne]
  · intro d hd hst
    have hok : m.commandType = "train" → m.data ≠ none := by
      intro _
      rw [hd]
      exact Option.some_ne_none d
    obtain ⟨ho, _⟩ := handleMessage_correlate_fields (s := s) hok
    obtain ⟨_, co⟩ := correlate_match hrid hne hget hset
    rw [hd] at co
    rw [ho, co, matchedOutcome, if_neg hst]
  · intro hd ht
    have hok : m.commandType = "train" → m.data ≠ none := fun hc => absurd hc ht
    obtain ⟨ho, _⟩ := handleMessage_correlate_fields (s := s) hok
    obtain ⟨_, co⟩ := correlate_match hrid hne hget hset
    rw [hd] at co
    rw [ho, co, matchedOutcome]
  · intro hok
    obtain ⟨_, hp⟩ := handleMessage_correlate_fields (s := s) hok
    obtain ⟨cp, _⟩ := correlate_match hrid hne hget hset
    rw [hp, cp]

/-- An error response with a present, non-empty message. -/
def namedErrFrame : WSMessage :=
  { messageType := "response", commandType := "init",
    data := some { status := some "error", message := some "X" },
    requestId := some "r" }

theorem claim_C3_witness :
    (namedErrFrame.requestId = some "r" ∧
     getKey? remoteErrorClient.pendingRequests "r" =
       some { requestId := "r", opId := 7, commandType := "init" }) ∧
    (handleMessage remoteErrorClient (Frame.parsed namedErrFrame)).outcomes =
      [Outcome.rejected 7 "X"] ∧
    (handleMessage remoteErrorClient (Frame.parsed namedErrFrame)).pendingRequests =
      deleteKey remoteErrorClient.pendingRequests "r" := by
  have h := claim_C3 remoteErrorClient namedErrFrame "r"
    { requestId := "r", opId := 7, commandType := "init" }
    rfl (by decide) (by decide) (by decide)
  exact ⟨⟨rfl, by decide⟩,
    (h.1 { status := some "error", message := some "X" } rfl rfl).2 "X" rfl (by decide),
    h.2.2.2 (by intro _ hc; cases hc)⟩

/-- A valid event-loop trace on which two reconnect timers end up
scheduled at once: a first connect whose socket errors and then closes
(scheduling reconnect timer one), a manual reconnect racing it, and that
second socket's failure scheduling reconnect timer two while the first
is still pending. -/
def c9Trace : List LoopEvent :=
  [LoopEvent.callConnect,
   LoopEvent.transportError 1,
   LoopEvent.callConnect,
   LoopEvent.transportClose 1 1006 "",
   LoopEvent.callConnect,
   LoopEvent.transportClose 3 1006 ""]

/-- C9 counterexample: it is not the case that every valid run keeps at
most one live ping interval and at most one scheduled reconnect attempt
while clearing a previous ping handle before arming a new one; the
concrete trace `c9Trace` reaches a state with two scheduled reconnect
timers (and `setupPing` never clears the previously tracked handle). -/
theorem claim_C9_counterexample :
    ¬ ((∀ es : List LoopEvent, validRun initialState es = true →
          pingTimerCount (run initialState es) ≤ 1 ∧
          reconTimerCount (run initialState es) ≤ 1) ∧
       (∀ (s : ClientState) (t : Nat), s.pingInterval = some t →
          hasTimer (setupPing s) t = false)) := by
  intro h
  have h2 := h.1 c9Trace (by decide)
  exact absurd h2.2 (by decide)

theorem attemptReconnect_pingInterval (s : ClientState) :
    (attemptReconnect s).pingInterval = s.pingInterval := by
  rw [attemptReconnect]
  split <;> rfl

theorem reconTimerCount_attempt (s : ClientState) :
    reconTimerCount (attemptReconnect s) =
      if s.reconnectAttempts ≥ s.maxReconnectAttempts then reconTimerCount s
      else reconTimerCount s + 1 := by
  rw [attemptReconnect]
  split
  · rfl
  · rw [reconTimerCount, reconTimerCount]
    dsimp only
    rw [List.filter_append, List.length_append]
    rfl

theorem reconTimerCount_cleanup_le (s : ClientState) :
    reconTimerCount (cleanup s) ≤ reconTimerCount s := by
  rw [cleanup]
  cases h : s.pingInterval
  · exact le_rfl
  · rw [reconTimerCount, reconTimerCount]
    dsimp only
    exact ((List.filter_sublist s.timers).filter _).length_le

/-- C9 amended: each transport closure schedules at most one reconnect
attempt and none once the attempt counter has reached the configured
maximum, and the `onclose` path always leaves the tracked ping handle
cleared — `cleanup` cancels the live ping timer it tracks. However
(per the counterexample) neither `setupPing` nor `attemptReconnect`
clears a previously scheduled timer first, so duplicate live timers are
reachable when `connect()` races a pending reconnect. -/
theorem claim_C9 : ∀ (s : ClientState) (sid pid code : Nat) (reason : String) (t : Nat),
    reconTimerCount (onClose s sid pid code reason) ≤ reconTimerCount s + 1 ∧
    (s.reconnectAttempts ≥ s.maxReconnectAttempts →
       reconTimerCount (onClose s sid pid code reason) ≤ reconTimerCount s) ∧
    (onClose s sid pid code reason).pingInterval = none ∧
    (s.pingInterval = some t → hasTimer (cleanup s) t = false) := by
  intro s sid pid code reason t
  set s3 := emitEvent (cleanup (setSocketPhase s sid SocketPhase.closed))
    (WSClientEvent.disconnected code reason) with hs3
  have hcount : reconTimerCount (onClose s sid pid code reason) =
      reconTimerCount (attemptReconnect s3) := by
    rw [onClose, ← hs3]
    split
    · rw [reconTimerCount, reconTimerCount]
      dsimp only
      rw [settle_timers]
    · rfl
  have hle3 : reconTimerCount s3 ≤ reconTimerCount s := by
    rw [hs3]
    exact reconTimerCount_cleanup_le (setSocketPhase s sid SocketPhase.closed)
  have hattempts : s3.reconnectAttempts = s.reconnectAttempts := by
    rw [hs3, emitEvent]
    dsimp only
    rw [cleanup]
    cases (setSocketPhase s sid SocketPhase.closed).pingInterval <;> rfl
  have hmax : s3.maxReconnectAttempts = s.maxReconnectAttempts := by
    rw [hs3, emitEvent]
    dsimp only
    rw [cleanup]
    cases (setSocketPhase s sid SocketPhase.closed).pingInterval <;> rfl
  refine ⟨?_, ?_, ?_, ?_⟩
  · rw [hcount, reconTimerCount_attempt]
    split
    · omega
    · omega
  · intro hcap
    rw [hcount, reconTimerCount_attempt, if_pos (by rw [hattempts, hmax]; exact hcap)]
    exact hle3
  · rw [onClose, ← hs3]
    split
    · dsimp only
      rw [settle_pingInterval, attemptReconnect_pingInterval, hs3, emitEvent]
      dsimp only
      exact cleanup_pingInterval _
    · rw [attemptReconnect_pingInterval, hs3, emitEvent]
      dsimp only
      exact cleanup_pingInterval _
  · intro hp
    unfold cleanup
    rw [hp]
    dsimp only
    rw [hasTimer]
    dsimp only
    rw [List.any_eq_false]
    intro tm htm
    rw [List.mem_filter] at htm
    simp only [decide_eq_true_eq] at htm ⊢
    exact htm.2

/-- A client at the reconnect-attempt cap with a live tracked ping
interval, used to evaluate the close handler at a concrete input. -/
def cappedClient : ClientState :=
  { sockets := [{ id := 0, pid := 0, phase := SocketPhase.opened }],
    currentSocket := some 0, reconnectAttempts := 5, pingInterval := some 1,
    timers := [{ id := 1, kind := TimerKind.pingTick }], nextId := 2 }

theorem claim_C9_witness :
    (cappedClient.reconnectAttempts ≥ cappedClient.maxReconnectAttempts ∧
     cappedClient.pingInterval = some 1) ∧
    reconTimerCount (onClose cappedClient 0 0 1006 "gone") ≤ reconTimerCount cappedClient ∧
    (onClose cappedClient 0 0 1006 "gone").pingInterval = none ∧
    hasTimer (cleanup cappedClient) 1 = false := by
  have h := claim_C9 cappedClient 0 0 1006 "gone" 1
  exact ⟨⟨by decide, rfl⟩, h.2.1 (by decide), h.2.2.1, h.2.2.2 rfl⟩

end NeuroScope
